import Mathlib

/-!
Verification development for the api-error repository (src/index.js).

The JavaScript error model is shallowly embedded: dynamic JS values are the
inductive type `JSVal`, class instances of `ApiError` and its variants are the
`errObj` case (carrying the variant tag and the own properties the source
assigns), plain option bags are `obj` association lists, and the external
deep-merge utility `@trenskow/merge` is modelled from its stated contract
(right-biased deep merge that does not mutate its inputs, later array wins).
The external `@trenskow/stack` formatter is opaque: a raw captured stack is
`rawStk n` and its structured form is `stk n`.
-/

/-- The 14 runtime classes of the source: the base class `ApiError` and the
13 concrete variants declared in src/index.js. -/
inductive Variant : Type where
  | base
  | notAuthorized
  | paymentRequired
  | forbidden
  | notFound
  | conflict
  | methodNotAllowed
  | badRequest
  | tooManyRequests
  | payloadTooLarge
  | internalError
  | notImplemented
  | serviceUnavailable
  | aggregated
  deriving DecidableEq, Repr

/-- Dynamic JavaScript values as used by src/index.js: `undefv`/`nullv` are
`undefined`/`null`, `strList` is an array of strings (the representation the
source uses for key paths), `rawStk` is the raw stack string captured by the
host `Error` machinery, `stk` is a structured stack produced by the external
stack formatter, `arr` is a generic array, `obj` is a plain object (an
association list of own properties), and `errObj` is an instance of `ApiError`
or one of its subclasses, carrying in order: the class, `message`, `_name`,
`_entity`, `_statusCode`, `_stacked`, `_keyPath`, `_origin`, `_underlying`,
`_options`, the captured raw stack, and `_errors` (only assigned by the
`Aggregated` constructor; `undefv` on every other class). -/
inductive JSVal : Type where
  | undefv : JSVal
  | nullv : JSVal
  | str : String → JSVal
  | num : Int → JSVal
  | strList : List String → JSVal
  | rawStk : Nat → JSVal
  | stk : Nat → JSVal
  | arr : List JSVal → JSVal
  | obj : List (String × JSVal) → JSVal
  | errObj : Variant → JSVal → JSVal → JSVal → JSVal → JSVal → JSVal → JSVal →
      JSVal → JSVal → Nat → JSVal → JSVal

/-- JavaScript truthiness of the modelled values. -/
def truthy : JSVal → Bool
  | .undefv => false
  | .nullv => false
  | .str s => if s = "" then false else true
  | .num n => if n = 0 then false else true
  | .strList _ => true
  | .rawStk _ => true
  | .stk _ => true
  | .arr _ => true
  | .obj _ => true
  | .errObj _ _ _ _ _ _ _ _ _ _ _ _ => true

/-- The JS test `typeof v === 'object'` (true for objects, arrays and null;
a raw stack is a string, hence false). -/
def isObjectType : JSVal → Bool
  | .nullv => true
  | .strList _ => true
  | .stk _ => true
  | .arr _ => true
  | .obj _ => true
  | .errObj _ _ _ _ _ _ _ _ _ _ _ _ => true
  | _ => false

/-- `v === null`. -/
def isNullv : JSVal → Bool
  | .nullv => true
  | _ => false

/-- `v === undefined`. -/
def isUndefv : JSVal → Bool
  | .undefv => true
  | _ => false

/-- Whether the value is an instance of `ApiError` or a subclass. -/
def isErrObj : JSVal → Bool
  | .errObj _ _ _ _ _ _ _ _ _ _ _ _ => true
  | _ => false

/-- Whether `Array.isArray` holds of the value. -/
def isJSArray : JSVal → Bool
  | .arr _ => true
  | .strList _ => true
  | _ => false

/-- First-occurrence lookup in a property list; absent keys read `undefined`. -/
def lookupV : List (String × JSVal) → String → JSVal
  | [], _ => .undefv
  | (k', v) :: rest, k => if k' = k then v else lookupV rest k

/-- Assignment `o[k] = v`: replaces the first binding of `k`, or appends. -/
def upsert : List (String × JSVal) → String → JSVal → List (String × JSVal)
  | [], k, v => [(k, v)]
  | (k', w) :: rest, k, v => if k' = k then (k, v) :: rest else (k', w) :: upsert rest k v

/-- `delete o[k]`: removes every binding of `k`. -/
def delFields (k : String) : List (String × JSVal) → List (String × JSVal)
  | [] => []
  | (k1, v) :: rest => if k1 = k then delFields k rest else (k1, v) :: delFields k rest

/-- Class accessor of an error instance. -/
def clsF : JSVal → Variant
  | .errObj c _ _ _ _ _ _ _ _ _ _ _ => c
  | _ => .base

/-- `message` own property of an error instance. -/
def messageF : JSVal → JSVal
  | .errObj _ m _ _ _ _ _ _ _ _ _ _ => m
  | _ => .undefv

/-- `_name` of an error instance. -/
def nameF : JSVal → JSVal
  | .errObj _ _ n _ _ _ _ _ _ _ _ _ => n
  | _ => .undefv

/-- `_entity` of an error instance. -/
def entityF : JSVal → JSVal
  | .errObj _ _ _ e _ _ _ _ _ _ _ _ => e
  | _ => .undefv

/-- `_statusCode` of an error instance. -/
def statusCodeF : JSVal → JSVal
  | .errObj _ _ _ _ s _ _ _ _ _ _ _ => s
  | _ => .undefv

/-- `_stacked` (the pre-supplied structured stack) of an error instance. -/
def stackedPreF : JSVal → JSVal
  | .errObj _ _ _ _ _ s _ _ _ _ _ _ => s
  | _ => .undefv

/-- `_keyPath` of an error instance. -/
def keyPathF : JSVal → JSVal
  | .errObj _ _ _ _ _ _ k _ _ _ _ _ => k
  | _ => .undefv

/-- `_origin` of an error instance. -/
def originF : JSVal → JSVal
  | .errObj _ _ _ _ _ _ _ o _ _ _ _ => o
  | _ => .undefv

/-- `_underlying` of an error instance. -/
def underlyingF : JSVal → JSVal
  | .errObj _ _ _ _ _ _ _ _ u _ _ _ => u
  | _ => .undefv

/-- `_options` (the residual generic options bag) of an error instance. -/
def optionsF : JSVal → JSVal
  | .errObj _ _ _ _ _ _ _ _ _ o _ _ => o
  | _ => .undefv

/-- The raw stack captured at construction of an error instance. -/
def rawStackF : JSVal → Nat
  | .errObj _ _ _ _ _ _ _ _ _ _ r _ => r
  | _ => 0

/-- `_errors` of an `Aggregated` instance (`undefv` on other classes). -/
def aggErrorsF : JSVal → JSVal
  | .errObj _ _ _ _ _ _ _ _ _ _ _ e => e
  | _ => .undefv

/-!
The external deep-merge utility, modelled from its stated contract:
a right-biased deep merge of plain objects (later sources win; when both
values at a key are plain objects they are merged recursively, otherwise
the later value replaces the earlier one — in particular the later array
wins). It never mutates its inputs. `mergeVal a b` merges value `b` over
value `a`; `mergeFields` folds the fields of the later source over the
earlier one in order.
-/
mutual

/-- Deep merge of a single later value `b` over an earlier value `a`. -/
def mergeVal (a b : JSVal) : JSVal :=
  match b with
  | .obj fb =>
    match a with
    | .obj fa => .obj (mergeFields fa fb)
    | _ => .obj fb
  | _ => b

/-- Fold the fields of the later source `fb` over the earlier fields `fa`. -/
def mergeFields (fa fb : List (String × JSVal)) : List (String × JSVal) :=
  match fb with
  | [] => fa
  | (k, v) :: rest => mergeFields (upsert fa k (mergeVal (lookupV fa k) v)) rest

end

/-- `merge(target, source)` for one source: a non-object source contributes
nothing; an object source is field-merged into the target (a fresh object is
produced when the target is not an object, matching `merge({}, ...)` usage). -/
def jsMerge (t s : JSVal) : JSVal :=
  match s with
  | .obj fs =>
    match t with
    | .obj ft => .obj (mergeFields ft fs)
    | _ => .obj (mergeFields [] fs)
  | _ => t

/-- `merge({}, a, b)` as used throughout src/index.js. -/
def merge3 (a b : JSVal) : JSVal :=
  jsMerge (jsMerge (.obj []) a) b

/-- Property read `v[k]`. On a plain object this is a field lookup. On an
error instance it reads the own properties and accessor getters the source
defines: `message`, `name`, `entity`, `statusCode`, `keyPath`, `options`,
`origin`, `underlying`, the `errors` getter (present only on `Aggregated`),
the internal `_stacked` own property, and `stack` (the raw stack string the
host `Error` captured). Reads of other keys, or on primitives, yield
`undefined`; the getters `actual` and `stacked` are modelled as standalone
functions below because no code path reads them through a bag. -/
def getProp (v : JSVal) (k : String) : JSVal :=
  match v with
  | .obj fs => lookupV fs k
  | .errObj c m n en sc st kp og ul ob rs er =>
    if k = "message" then m
    else if k = "name" then n
    else if k = "entity" then en
    else if k = "statusCode" then sc
    else if k = "keyPath" then kp
    else if k = "options" then ob
    else if k = "origin" then og
    else if k = "underlying" then ul
    else if k = "errors" then (if c = .aggregated then er else .undefv)
    else if k = "_stacked" then st
    else if k = "stack" then .rawStk rs
    else .undefv
  | _ => .undefv

/-- `delete v[k]` on a plain object (a no-op on anything else; the source
only deletes from freshly merged plain option bags on every exercised path). -/
def delProp (v : JSVal) (k : String) : JSVal :=
  match v with
  | .obj fs => .obj (delFields k fs)
  | _ => v

/-- `v[k] = x` on a plain object (a no-op on anything else). -/
def setProp (v : JSVal) (k : String) (x : JSVal) : JSVal :=
  match v with
  | .obj fs => .obj (upsert fs k x)
  | _ => v

/-- The JS string split `s.split_on_dot`, following the host semantics of
`split` with a one-character separator: the empty string yields one empty
piece, and separators at the ends yield empty pieces. -/
def splitDotsAux : List Char → List Char → List String
  | [], acc => [String.mk acc.reverse]
  | c :: cs, acc =>
    if c = '.' then String.mk acc.reverse :: splitDotsAux cs []
    else splitDotsAux cs (c :: acc)

/-- `s.split('.')` of the host, on the modelled strings. -/
def splitDots (s : String) : List String :=
  splitDotsAux s.toList []

/-- `l.join('.')` of the host. -/
def joinDots : List String → String
  | [] => ""
  | [x] => x
  | x :: rest => x ++ "." ++ joinDots rest

/-- `ApiError._correctArguments(message, options)` (src/index.js lines 39-50):
when the first argument is a non-null object and no second argument is given,
the first argument becomes the options and the message is read from it; the
options then default to an empty object. -/
def ApiError._correctArguments (message options : JSVal) : JSVal × JSVal :=
  if isObjectType message && !isNullv message && !truthy options then
    (getProp message "message", message)
  else
    (message, if truthy options then options else .obj [])

/-- The external stack formatter `stack(s)` wrapped by `ApiError.stackToJSON`
(src/index.js lines 52-54), modelled opaquely: the structured form of the raw
stack `rawStk n` is `stk n`; its behaviour on anything that is not a raw
stack string is unspecified and modelled as `stk 0`. -/
def ApiError.stackToJSON : JSVal → JSVal
  | .rawStk n => .stk n
  | _ => .stk 0

/-- The body of the `ApiError` constructor (src/index.js lines 56-85), run by
every class with `cls` recording the concrete class of the instance and `cap`
the raw stack the host captures at construction. It normalizes the arguments,
stores `message`, extracts `_name`, `_entity`, `_statusCode` (defaulting to
500 when falsy) and `_stacked`, deletes `message`, `name`, `entity`,
`statusCode` and `stack` from the options, keeps the mutated options object
as `_options`, splits a string `keyPath` in place, and stores `_keyPath`,
`_origin` and `_underlying`. `_errors` starts out absent (`undefv`); only the
`Aggregated` constructor assigns it afterwards. -/
def ApiError.construct (cls : Variant) (message0 options0 : JSVal) (cap : Nat) : JSVal :=
  let ca := ApiError._correctArguments message0 options0
  let message := ca.1
  let options := ca.2
  let nm := getProp options "name"
  let en := getProp options "entity"
  let sc0 := getProp options "statusCode"
  let sc := if truthy sc0 then sc0 else .num 500
  let st := getProp options "stack"
  let options1 :=
    delProp (delProp (delProp (delProp (delProp options "message") "name") "entity")
      "statusCode") "stack"
  let options2 :=
    match getProp options1 "keyPath" with
    | .str s => setProp options1 "keyPath" (.strList (splitDots s))
    | _ => options1
  let kp := getProp options2 "keyPath"
  let og := getProp options2 "origin"
  let ul := getProp options2 "underlying"
  .errObj cls message nm en sc st kp og ul options2 cap .undefv

/-- The fixed wire name each concrete variant merges in (src/index.js);
unused for the base class. -/
def fixedName : Variant → String
  | .base => ""
  | .notAuthorized => "not-authorized"
  | .paymentRequired => "payment-required"
  | .forbidden => "forbidden"
  | .notFound => "not-found"
  | .conflict => "already-exists"
  | .methodNotAllowed => "method-not-allowed"
  | .badRequest => "bad-request"
  | .tooManyRequests => "too-many-requests"
  | .payloadTooLarge => "payload-too-large"
  | .internalError => "internal-error"
  | .notImplemented => "not-implemented"
  | .serviceUnavailable => "service-unavailable"
  | .aggregated => "aggregated"

/-- The fixed status code each concrete variant merges in; unused for the
base class. -/
def fixedStatus : Variant → Int
  | .base => 500
  | .notAuthorized => 401
  | .paymentRequired => 402
  | .forbidden => 403
  | .notFound => 404
  | .conflict => 409
  | .methodNotAllowed => 405
  | .badRequest => 400
  | .tooManyRequests => 429
  | .payloadTooLarge => 413
  | .internalError => 500
  | .notImplemented => 501
  | .serviceUnavailable => 503
  | .aggregated => 400

/-- The default message each concrete variant supplies when the given message
is falsy; unused for the base class. -/
def defaultMessage : Variant → String
  | .base => ""
  | .notAuthorized => "Not authorized."
  | .paymentRequired => "Payment required."
  | .forbidden => "Forbidden."
  | .notFound => "Resource not found."
  | .conflict => "Resource already exists."
  | .methodNotAllowed => "Method is not allowed."
  | .badRequest => "Bad request"
  | .tooManyRequests => "Too many requests."
  | .payloadTooLarge => "Payload too large."
  | .internalError => "Internal server error."
  | .notImplemented => "Not implemented."
  | .serviceUnavailable => "Service unavailable."
  | .aggregated => "Multiple errors occurred."

/-- Whether the variant constructor writes `name: options.name || fixed`
(true) or plainly `name: fixed` (false, for NotAuthorized, PaymentRequired
and Forbidden); unused for the base class. -/
def nameOverridable : Variant → Bool
  | .base => false
  | .notAuthorized => false
  | .paymentRequired => false
  | .forbidden => false
  | _ => true

/-- The constructor of class `v`. For the base class this is the `ApiError`
constructor itself. For each concrete variant it is the uniform pattern of
src/index.js lines 136-293: correct the arguments, call the base constructor
with `message || default` and `merge({}, options, { name, statusCode })`
(with `name: options.name || fixed` on the overridable variants), and for
`Aggregated` additionally assign
`this._errors = options.underlying?.errors || options.errors || []`
after the base constructor ran. -/
def mkVariant (v : Variant) (message0 options0 : JSVal) (cap : Nat) : JSVal :=
  match v with
  | .base => ApiError.construct .base message0 options0 cap
  | _ =>
    let ca := ApiError._correctArguments message0 options0
    let message := ca.1
    let options := ca.2
    let nm :=
      if nameOverridable v then
        (let n := getProp options "name"
         if truthy n then n else .str (fixedName v))
      else .str (fixedName v)
    let merged := jsMerge (jsMerge (.obj []) options)
      (.obj [("name", nm), ("statusCode", .num (fixedStatus v))])
    let msg1 := if truthy message then message else .str (defaultMessage v)
    let base := ApiError.construct v msg1 merged cap
    if v = .aggregated then
      let u := getProp options "underlying"
      let ue := if isNullv u || isUndefv u then .undefv else getProp u "errors"
      let es :=
        if truthy ue then ue
        else (let e := getProp options "errors"; if truthy e then e else .arr [])
      (match base with
        | .errObj c m n en sc st kp og ul ob rs _ =>
          .errObj c m n en sc st kp og ul ob rs es
        | b => b)
    else base

/-- `new ApiError(message, options)`. -/
def ApiError.make (message options : JSVal) (cap : Nat) : JSVal :=
  mkVariant .base message options cap

/-- `new NotAuthorized(message, options)`. -/
def NotAuthorized.make (message options : JSVal) (cap : Nat) : JSVal :=
  mkVariant .notAuthorized message options cap

/-- `new PaymentRequired(message, options)`. -/
def PaymentRequired.make (message options : JSVal) (cap : Nat) : JSVal :=
  mkVariant .paymentRequired message options cap

/-- `new Forbidden(message, options)`. -/
def Forbidden.make (message options : JSVal) (cap : Nat) : JSVal :=
  mkVariant .forbidden message options cap

/-- `new NotFound(message, options)`. -/
def NotFound.make (message options : JSVal) (cap : Nat) : JSVal :=
  mkVariant .notFound message options cap

/-- `new Conflict(message, options)`. -/
def Conflict.make (message options : JSVal) (cap : Nat) : JSVal :=
  mkVariant .conflict message options cap

/-- `new MethodNotAllowed(message, options)`. -/
def MethodNotAllowed.make (message options : JSVal) (cap : Nat) : JSVal :=
  mkVariant .methodNotAllowed message options cap

/-- `new BadRequest(message, options)`. -/
def BadRequest.make (message options : JSVal) (cap : Nat) : JSVal :=
  mkVariant .badRequest message options cap

/-- `new TooManyRequests(message, options)`. -/
def TooManyRequests.make (message options : JSVal) (cap : Nat) : JSVal :=
  mkVariant .tooManyRequests message options cap

/-- `new PayloadTooLarge(message, options)`. -/
def PayloadTooLarge.make (message options : JSVal) (cap : Nat) : JSVal :=
  mkVariant .payloadTooLarge message options cap

/-- `new InternalError(message, options)`. -/
def InternalError.make (message options : JSVal) (cap : Nat) : JSVal :=
  mkVariant .internalError message options cap

/-- `new NotImplemented(message, options)`. -/
def NotImplemented.make (message options : JSVal) (cap : Nat) : JSVal :=
  mkVariant .notImplemented message options cap

/-- `new ServiceUnavailable(message, options)`. -/
def ServiceUnavailable.make (message options : JSVal) (cap : Nat) : JSVal :=
  mkVariant .serviceUnavailable message options cap

/-- `new Aggregated(message, options)`. -/
def Aggregated.make (message options : JSVal) (cap : Nat) : JSVal :=
  mkVariant .aggregated message options cap

/-- `ApiError._type(name)` (src/index.js lines 6-23): the fixed wire-name to
class table, defaulting to the base class. -/
def ApiError._type : String → Variant
  | "not-authorized" => .notAuthorized
  | "payment-required" => .paymentRequired
  | "forbidden" => .forbidden
  | "not-found" => .notFound
  | "already-exists" => .conflict
  | "method-not-allowed" => .methodNotAllowed
  | "bad-request" => .badRequest
  | "too-many-requests" => .tooManyRequests
  | "payload-too-large" => .payloadTooLarge
  | "internal-error" => .internalError
  | "not-implemented" => .notImplemented
  | "service-unavailable" => .serviceUnavailable
  | "aggregated" => .aggregated
  | _ => .base

/-- The `actual` getter (src/index.js lines 115-117):
`(this._underlying || {}).underlying || this._underlying || this`. -/
def actualOf (v : JSVal) : JSVal :=
  match v with
  | .errObj _ _ _ _ _ _ _ _ u _ _ _ =>
    let uu := getProp (if truthy u then u else .obj []) "underlying"
    if truthy uu then uu else if truthy u then u else v
  | w => w

/-- The `stacked` getter (src/index.js lines 119-122): the pre-supplied
structured stack of the `actual` error if any, else the structured form of
the raw stack of the `actual` error. -/
def stackedOf (v : JSVal) : JSVal :=
  let a := actualOf v
  let pre := getProp a "_stacked"
  if truthy pre then pre else ApiError.stackToJSON (getProp a "stack")

/-- The name transform of `toJSON` (src/index.js line 126): split before
every ASCII uppercase letter (never at position 0, matching the host
zero-width split), join with a dash, and lowercase everything. -/
def kebabAux : List Char → List Char
  | [] => []
  | c :: cs =>
    if c.isUpper then '-' :: c.toLower :: kebabAux cs
    else c.toLower :: kebabAux cs

/-- The full kebab-case transform applied to the internal name. -/
def kebab (s : String) : String :=
  match s.toList with
  | [] => ""
  | c :: cs => String.mk (c.toLower :: kebabAux cs)

/-- The `name` transform of the base serialization (src/index.js line 126):
kebab-cased when the internal name is a nonempty string, `undefined` when
falsy (a truthy non-string name would fail in the host and is unexercised). -/
def nameOut (n : JSVal) : JSVal :=
  match n with
  | .str s => if s = "" then .undefv else .str (kebab s)
  | _ => .undefv

/-- The `keyPath` transform of the base serialization (src/index.js line
129): dot-joined when a nonempty array, `undefined` when empty or falsy. -/
def keyPathOut (kp : JSVal) : JSVal :=
  match kp with
  | .strList l => if l.isEmpty then .undefv else .str (joinDots l)
  | _ => .undefv

mutual

/-- `toJSON(options)` (src/index.js lines 124-132 and 322-327), with the
config reduced to the truthiness of `options.includeStack`. The base class
produces an object with exactly the keys `name`, `message`, `entity`,
`keyPath` and `stack` (the structured stack when requested); `Aggregated`
merges `{ errors: children.map(toJSON) }` on top. -/
def toJSON (v : JSVal) (includeStack : Bool) : JSVal :=
  match v with
  | .errObj c m n en sc st kp og ul ob rs er =>
    let base := JSVal.obj [("name", nameOut n), ("message", m), ("entity", en),
      ("keyPath", keyPathOut kp),
      ("stack", if includeStack then
        stackedOf (JSVal.errObj c m n en sc st kp og ul ob rs er) else .undefv)]
    if c = .aggregated then
      jsMerge (jsMerge (.obj []) base)
        (.obj [("errors", .arr (childJSONs er includeStack))])
    else base
  | _ => .undefv

/-- The serialized children of an aggregated error: `toJSON` mapped over the
collection, in order; a collection that is not an array would fail in the
host and is modelled as empty. -/
def childJSONs (er : JSVal) (includeStack : Bool) : List JSVal :=
  match er with
  | .arr l => toJSONList l includeStack
  | _ => []

/-- `toJSON` mapped over a list of children, in order. -/
def toJSONList (l : List JSVal) (includeStack : Bool) : List JSVal :=
  match l with
  | [] => []
  | e :: rest => toJSON e includeStack :: toJSONList rest includeStack

end

/-- The keys of a plain object, in order. -/
def objKeys : JSVal → List String
  | .obj fs => fs.map Prod.fst
  | _ => []

/-- `ApiError.parse(data, statusCode, origin)` (src/index.js lines 25-37),
with an explicit recursion budget `fuel` standing for the (finite) nesting
depth of `errors` arrays in the acyclic payload, and `cap` the raw stack the
host captures when the selected constructor runs. It deep-merges `data` with
the overlay `{ message, statusCode, origin }`, re-assigns `options.errors`
to the recursively parsed children (the assignment writes `undefined` when
there is no array of children, exactly as `options.errors?.map(...)` does),
selects the class from `data.name || 'bad-request'` via the fixed table, and
constructs it with the options as the single argument. -/
def ApiError.parse : Nat → JSVal → JSVal → JSVal → Nat → JSVal
  | 0, _, _, _, _ => .undefv
  | fuel + 1, data, statusCode, origin, cap =>
    let options := merge3 data
      (.obj [("message", getProp data "message"), ("statusCode", statusCode),
        ("origin", origin)])
    let options :=
      match getProp options "errors" with
      | .arr l => setProp options "errors"
          (.arr (l.map (fun e => ApiError.parse fuel e statusCode origin cap)))
      | _ => setProp options "errors" .undefv
    let nm := getProp data "name"
    let v :=
      match (if truthy nm then nm else .str "bad-request") with
      | .str s => ApiError._type s
      | _ => .base
    mkVariant v options .undefv cap

/-- The prototype chain of constructor names the `_check` ancestry walk of
src/index.js lines 297-304 traverses. Every instance of `ApiError` or a
subclass reaches the prototype whose constructor is named `ApiError`; plain
objects, arrays, strings, numbers and stacks never do. Reading the prototype
of `null` or `undefined` fails in the host with a type error, which the walk
surfaces; this is modelled as an empty chain (the walk then reports the same
failure). -/
def protoChain : JSVal → List String
  | .errObj c _ _ _ _ _ _ _ _ _ _ _ =>
    (match c with
     | .base => ["ApiError", "Error", "Object"]
     | _ => ["Variant", "ApiError", "Error", "Object"])
  | .obj _ => ["Object"]
  | .arr _ => ["Array", "Object"]
  | .strList _ => ["Array", "Object"]
  | .str _ => ["String", "Object"]
  | .num _ => ["Number", "Object"]
  | .rawStk _ => ["String", "Object"]
  | .stk _ => ["Object"]
  | .undefv => []
  | .nullv => []

/-- The per-element ancestry test of `_check`: some prototype on the chain
has a constructor named `ApiError`. -/
def isApiErrorCompatible (v : JSVal) : Bool :=
  (protoChain v).contains "ApiError"

/-- The message of the type error `_check` raises. -/
def typeErrorMessage : String :=
  "Error must an array of type `ApiError`."

/-- `Aggregated._check(errors)` (src/index.js lines 295-308): when the input
is an array and every element passes the ancestry walk, the array is
returned unchanged; otherwise a type error is raised synchronously. -/
def Aggregated._check : JSVal → Except String JSVal
  | .arr l =>
    if l.all isApiErrorCompatible then .ok (.arr l)
    else .error typeErrorMessage
  | .strList l =>
    if l.isEmpty then .ok (.strList l) else .error typeErrorMessage
  | _ => .error typeErrorMessage

/-- Replace the `_errors` collection of an aggregated instance. -/
def setAggErrors : JSVal → JSVal → JSVal
  | .errObj c m n en sc st kp og ul ob rs _, e =>
    .errObj c m n en sc st kp og ul ob rs e
  | v, _ => v

/-- `this._errors.concat(checked)`; the collection is an array on every
exercised path (the host would fail otherwise). -/
def concatErrors : JSVal → JSVal → JSVal
  | .arr x, .arr y => .arr (x ++ y)
  | .arr x, .strList y => .arr (x ++ y.map JSVal.str)
  | a, _ => a

/-- `Aggregated.add(error)` (src/index.js lines 310-312): wrap a non-array in
a singleton array, validate via `_check`, and append to `_errors`. The result
is the state of the instance after the call paired with the raised type
error, if any; when `_check` raises, the assignment never runs and the
instance is returned unchanged. -/
def Aggregated.add (self e : JSVal) : JSVal × Option String :=
  let candidate :=
    match e with
    | .arr l => JSVal.arr l
    | .strList l => JSVal.strList l
    | x => JSVal.arr [x]
  match Aggregated._check candidate with
  | .ok v => (setAggErrors self (concatErrors (aggErrorsF self) v), none)
  | .error msg => (self, some msg)

/-- The `errors` setter (src/index.js lines 318-320): replace the whole
collection after `_check` validation; when `_check` raises, the instance is
returned unchanged. -/
def Aggregated.setErrorsProp (self es : JSVal) : JSVal × Option String :=
  match Aggregated._check es with
  | .ok v => (setAggErrors self v, none)
  | .error msg => (self, some msg)

/-- Modelled from the words of the spec, for comparison with the `actual`
getter: the first ancestor along the `underlying` chain that itself has no
further `underlying` error, reached by walking `underlying.underlying...`
to the root (the instance itself when it has no underlying error). -/
def specChainRoot : JSVal → JSVal
  | .errObj c m n en sc st kp og u ob rs er =>
    if isErrObj u then specChainRoot u
    else .errObj c m n en sc st kp og u ob rs er
  | w => w

mutual

/-- Well-formedness of the `_errors` collections reachable from an instance:
each is either absent or an array of error instances that are themselves
well-formed. Every value the constructors of the source can produce from
well-formed inputs satisfies this; the host fails on anything else before
`toJSON` completes. -/
def aggWF : JSVal → Bool
  | .errObj _ _ _ _ _ _ _ _ _ _ _ er =>
    (match er with
     | .undefv => true
     | .arr l => aggWFList l
     | _ => false)
  | _ => true

/-- `aggWF` over a collection: every element is an error instance and is
itself well-formed. -/
def aggWFList : List JSVal → Bool
  | [] => true
  | e :: rest => isErrObj e && aggWF e && aggWFList rest

end

/-- Looking a key up right after assigning it reads the assigned value. -/
theorem lookupV_upsert_self (fs : List (String × JSVal)) (k : String) (v : JSVal) :
    lookupV (upsert fs k v) k = v := by
  induction fs with
  | nil => simp [upsert, lookupV]
  | cons p rest ih =>
    obtain ⟨k1, w⟩ := p
    by_cases h : k1 = k
    · simp [upsert, lookupV, h]
    · simp [upsert, lookupV, h, ih]

/-- Assigning one key leaves the other keys unchanged. -/
theorem lookupV_upsert_ne (fs : List (String × JSVal)) (k k1 : String) (v : JSVal)
    (h : k1 ≠ k) : lookupV (upsert fs k v) k1 = lookupV fs k1 := by
  induction fs with
  | nil => simp [upsert, lookupV, Ne.symm h]
  | cons p rest ih =>
    obtain ⟨k2, w⟩ := p
    by_cases h2 : k2 = k
    · subst h2
      simp [upsert, lookupV, Ne.symm h]
    · simp [upsert, lookupV, h2, ih]

/-- A deleted key reads `undefined`. -/
theorem lookupV_del_self (fs : List (String × JSVal)) (k : String) :
    lookupV (delFields k fs) k = .undefv := by
  induction fs with
  | nil => simp [delFields, lookupV]
  | cons p rest ih =>
    obtain ⟨k1, w⟩ := p
    by_cases h : k1 = k
    · simp [delFields, h, ih]
    · simp [delFields, lookupV, h, ih]

/-- Deleting one key leaves the other keys unchanged. -/
theorem lookupV_del_ne (fs : List (String × JSVal)) (k k1 : String)
    (h : k1 ≠ k) : lookupV (delFields k fs) k1 = lookupV fs k1 := by
  induction fs with
  | nil => simp [delFields, lookupV]
  | cons p rest ih =>
    obtain ⟨k2, w⟩ := p
    by_cases h2 : k2 = k
    · subst h2
      simp [delFields, lookupV, Ne.symm h, ih]
    · simp [delFields, lookupV, h2, ih]

/-- Merging a later non-object value replaces the earlier one. These unfold
`mergeVal` when the later value is `undefined` on the earlier side. -/
theorem mergeVal_undef_left (b : JSVal) : mergeVal .undefv b = b := by
  cases b <;> simp [mergeVal]

/-- Optional first-occurrence lookup, to state the merge lemma. -/
def lookupOpt : List (String × JSVal) → String → Option JSVal
  | [], _ => none
  | (k1, v) :: rest, k => if k1 = k then some v else lookupOpt rest k

/-- An absent key has no optional binding. -/
theorem lookupOpt_eq_none (fs : List (String × JSVal)) (k : String)
    (h : k ∉ fs.map Prod.fst) : lookupOpt fs k = none := by
  induction fs with
  | nil => simp [lookupOpt]
  | cons p rest ih =>
    obtain ⟨k1, w⟩ := p
    simp only [List.map_cons, List.mem_cons] at h
    push_neg at h
    simp [lookupOpt, Ne.symm h.1, ih h.2]

/-- Reading a key of a right-biased field merge whose later source has no
duplicate keys: bound in the later source, the value is the deep merge of
the two sides; otherwise the earlier value survives. -/
theorem lookupV_mergeFields (fb : List (String × JSVal)) (fa : List (String × JSVal))
    (k : String) (h : (fb.map Prod.fst).Nodup) :
    lookupV (mergeFields fa fb) k =
      (match lookupOpt fb k with
       | some v => mergeVal (lookupV fa k) v
       | none => lookupV fa k) := by
  induction fb generalizing fa with
  | nil => simp [mergeFields, lookupOpt]
  | cons p rest ih =>
    obtain ⟨k0, v0⟩ := p
    simp only [List.map_cons, List.nodup_cons] at h
    rw [mergeFields]
    rw [ih _ h.2]
    by_cases hk : k0 = k
    · subst hk
      rw [lookupOpt_eq_none rest k0 h.1]
      simp [lookupOpt, lookupV_upsert_self]
    · simp only [lookupOpt, hk, if_false]
      rw [lookupV_upsert_ne _ _ _ _ (fun hh => hk hh.symm)]

/-- The field list underlying an object target (`merge` starts from an empty
object when the target is not one). -/
def objFieldsOr : JSVal → List (String × JSVal)
  | .obj ft => ft
  | _ => []

/-- `merge` of an object source always yields the field merge over the
target fields. -/
theorem jsMerge_obj_src (t : JSVal) (fs : List (String × JSVal)) :
    jsMerge t (.obj fs) = .obj (mergeFields (objFieldsOr t) fs) := by
  cases t <;> simp [jsMerge, objFieldsOr]

/-- With a truthy options object the argument correction never swaps. -/
theorem correctArguments_obj (m : JSVal) (fs : List (String × JSVal)) :
    ApiError._correctArguments m (.obj fs) = (m, .obj fs) := by
  simp [ApiError._correctArguments, truthy]

/-- A lone non-null object argument becomes the options, and the message is
read from it. -/
theorem correctArguments_swap (fs : List (String × JSVal)) :
    ApiError._correctArguments (.obj fs) .undefv = (lookupV fs "message", .obj fs) := by
  simp [ApiError._correctArguments, truthy, isObjectType, isNullv, getProp]

/-- A string message is never treated as an options object. -/
theorem correctArguments_str (s : String) (o : JSVal) :
    ApiError._correctArguments (.str s) o = (.str s, if truthy o then o else .obj []) := by
  simp [ApiError._correctArguments, isObjectType]

/-- A missing message argument is never treated as an options object. -/
theorem correctArguments_undef (o : JSVal) :
    ApiError._correctArguments .undefv o = (.undefv, if truthy o then o else .obj []) := by
  simp [ApiError._correctArguments, isObjectType]

/-- The five fields the base constructor deletes from the options. -/
def delFive (fs : List (String × JSVal)) : List (String × JSVal) :=
  delFields "stack" (delFields "statusCode" (delFields "entity"
    (delFields "name" (delFields "message" fs))))

/-- Keys other than the five deleted ones read through `delFive` unchanged. -/
theorem lookupV_delFive (fs : List (String × JSVal)) (k1 : String)
    (h1 : k1 ≠ "message") (h2 : k1 ≠ "name") (h3 : k1 ≠ "entity")
    (h4 : k1 ≠ "statusCode") (h5 : k1 ≠ "stack") :
    lookupV (delFive fs) k1 = lookupV fs k1 := by
  rw [delFive, lookupV_del_ne _ _ _ h5, lookupV_del_ne _ _ _ h4,
    lookupV_del_ne _ _ _ h3, lookupV_del_ne _ _ _ h2, lookupV_del_ne _ _ _ h1]

/-- The deleted key `message` reads `undefined` after the deletions. -/
theorem lookupV_delFive_message (fs : List (String × JSVal)) :
    lookupV (delFive fs) "message" = .undefv := by
  rw [delFive, lookupV_del_ne _ _ _ (by decide), lookupV_del_ne _ _ _ (by decide),
    lookupV_del_ne _ _ _ (by decide), lookupV_del_ne _ _ _ (by decide),
    lookupV_del_self]

/-- The deleted key `name` reads `undefined` after the deletions. -/
theorem lookupV_delFive_name (fs : List (String × JSVal)) :
    lookupV (delFive fs) "name" = .undefv := by
  rw [delFive, lookupV_del_ne _ _ _ (by decide), lookupV_del_ne _ _ _ (by decide),
    lookupV_del_ne _ _ _ (by decide), lookupV_del_self]

/-- The deleted key `entity` reads `undefined` after the deletions. -/
theorem lookupV_delFive_entity (fs : List (String × JSVal)) :
    lookupV (delFive fs) "entity" = .undefv := by
  rw [delFive, lookupV_del_ne _ _ _ (by decide), lookupV_del_ne _ _ _ (by decide),
    lookupV_del_self]

/-- The deleted key `statusCode` reads `undefined` after the deletions. -/
theorem lookupV_delFive_statusCode (fs : List (String × JSVal)) :
    lookupV (delFive fs) "statusCode" = .undefv := by
  rw [delFive, lookupV_del_ne _ _ _ (by decide), lookupV_del_self]

/-- The deleted key `stack` reads `undefined` after the deletions. -/
theorem lookupV_delFive_stack (fs : List (String × JSVal)) :
    lookupV (delFive fs) "stack" = .undefv := by
  rw [delFive, lookupV_del_self]

/-- Full characterization of the base constructor on an explicit options
object: the extracted fields, the status default, the in-place key path
split, and the residual options bag. -/
theorem construct_obj (cls : Variant) (m : JSVal) (fs : List (String × JSVal)) (cap : Nat) :
    ApiError.construct cls m (.obj fs) cap =
      .errObj cls m (lookupV fs "name") (lookupV fs "entity")
        (if truthy (lookupV fs "statusCode") then lookupV fs "statusCode" else .num 500)
        (lookupV fs "stack")
        (match lookupV fs "keyPath" with
         | .str s => .strList (splitDots s)
         | kp => kp)
        (lookupV fs "origin") (lookupV fs "underlying")
        (match lookupV fs "keyPath" with
         | .str s => .obj (upsert (delFive fs) "keyPath" (.strList (splitDots s)))
         | _ => .obj (delFive fs))
        cap .undefv := by
  have hkp9 : lookupV (delFive fs) "keyPath" = lookupV fs "keyPath" :=
    lookupV_delFive fs "keyPath" (by decide) (by decide) (by decide) (by decide) (by decide)
  have hog : lookupV (delFive fs) "origin" = lookupV fs "origin" :=
    lookupV_delFive fs "origin" (by decide) (by decide) (by decide) (by decide) (by decide)
  have hul : lookupV (delFive fs) "underlying" = lookupV fs "underlying" :=
    lookupV_delFive fs "underlying" (by decide) (by decide) (by decide) (by decide) (by decide)
  simp only [ApiError.construct, correctArguments_obj, getProp, delProp, setProp]
  have hchain : delFields "stack" (delFields "statusCode" (delFields "entity"
      (delFields "name" (delFields "message" fs)))) = delFive fs := rfl
  rw [hchain, hkp9]
  cases hkp : lookupV fs "keyPath" with
  | str s =>
    simp only []
    rw [lookupV_upsert_self]
    rw [lookupV_upsert_ne _ _ _ _ (by decide), lookupV_upsert_ne _ _ _ _ (by decide)]
    rw [hog, hul]
  | undefv => simp only []; rw [hkp9, hog, hul, hkp]
  | nullv => simp only []; rw [hkp9, hog, hul, hkp]
  | num n => simp only []; rw [hkp9, hog, hul, hkp]
  | strList l => simp only []; rw [hkp9, hog, hul, hkp]
  | rawStk n => simp only []; rw [hkp9, hog, hul, hkp]
  | stk n => simp only []; rw [hkp9, hog, hul, hkp]
  | arr l => simp only []; rw [hkp9, hog, hul, hkp]
  | obj g => simp only []; rw [hkp9, hog, hul, hkp]
  | errObj c a b d e f g h i j u w => simp only []; rw [hkp9, hog, hul, hkp]

/-- Reading `statusCode` right after the variant fixed-field merge. -/
theorem lookupV_fixed_sc (MF : List (String × JSVal)) (NM SC : JSVal) :
    lookupV (upsert (upsert MF "name" NM) "statusCode" SC) "statusCode" = SC :=
  lookupV_upsert_self _ _ _

/-- Reading `name` right after the variant fixed-field merge. -/
theorem lookupV_fixed_name (MF : List (String × JSVal)) (NM SC : JSVal) :
    lookupV (upsert (upsert MF "name" NM) "statusCode" SC) "name" = NM := by
  rw [lookupV_upsert_ne _ _ _ _ (by decide), lookupV_upsert_self]

/-- Reading any other key right after the variant fixed-field merge. -/
theorem lookupV_fixed_other (MF : List (String × JSVal)) (NM SC : JSVal) (k : String)
    (h1 : k ≠ "name") (h2 : k ≠ "statusCode") :
    lookupV (upsert (upsert MF "name" NM) "statusCode" SC) k = lookupV MF k := by
  rw [lookupV_upsert_ne _ _ _ _ h2, lookupV_upsert_ne _ _ _ _ h1]

/-- Field-wise characterization of every concrete variant constructor on an
explicit options object: the class is recorded, a falsy message is replaced
by the variant default, the merged `name` wins over the caller options
exactly per the override rule, the fixed status always wins, and `entity`,
`stack`, `keyPath`, `origin` and `underlying` flow in from the deep merge of
the caller options into the empty target; `Aggregated` additionally
initializes `_errors` from
`options.underlying?.errors || options.errors || []`. -/
theorem mkVariant_obj_fields (v : Variant) (hv : v ≠ .base) (m : JSVal)
    (fs : List (String × JSVal)) (cap : Nat) :
    clsF (mkVariant v m (.obj fs) cap) = v
    ∧ messageF (mkVariant v m (.obj fs) cap) =
        (if truthy m then m else .str (defaultMessage v))
    ∧ nameF (mkVariant v m (.obj fs) cap) =
        mergeVal (lookupV (mergeFields [] fs) "name")
          (if nameOverridable v then
            (if truthy (lookupV fs "name") then lookupV fs "name"
             else .str (fixedName v))
           else .str (fixedName v))
    ∧ statusCodeF (mkVariant v m (.obj fs) cap) = .num (fixedStatus v)
    ∧ entityF (mkVariant v m (.obj fs) cap) = lookupV (mergeFields [] fs) "entity"
    ∧ stackedPreF (mkVariant v m (.obj fs) cap) = lookupV (mergeFields [] fs) "stack"
    ∧ keyPathF (mkVariant v m (.obj fs) cap) =
        (match lookupV (mergeFields [] fs) "keyPath" with
         | .str s => .strList (splitDots s)
         | kp => kp)
    ∧ originF (mkVariant v m (.obj fs) cap) = lookupV (mergeFields [] fs) "origin"
    ∧ underlyingF (mkVariant v m (.obj fs) cap) = lookupV (mergeFields [] fs) "underlying"
    ∧ rawStackF (mkVariant v m (.obj fs) cap) = cap
    ∧ aggErrorsF (mkVariant v m (.obj fs) cap) =
        (if v = .aggregated then
          (let u := lookupV fs "underlying"
           let ue := if isNullv u || isUndefv u then .undefv else getProp u "errors"
           if truthy ue then ue
           else if truthy (lookupV fs "errors") then lookupV fs "errors" else .arr [])
         else .undefv) := by
  cases v
  case base => exact absurd rfl hv
  all_goals (
    simp only [mkVariant, correctArguments_obj, getProp, jsMerge, mergeFields, mergeVal]
    rw [construct_obj]
    rw [lookupV_fixed_sc, lookupV_fixed_name,
      lookupV_fixed_other _ _ _ "entity" (by decide) (by decide),
      lookupV_fixed_other _ _ _ "stack" (by decide) (by decide),
      lookupV_fixed_other _ _ _ "keyPath" (by decide) (by decide),
      lookupV_fixed_other _ _ _ "origin" (by decide) (by decide),
      lookupV_fixed_other _ _ _ "underlying" (by decide) (by decide)]
    simp [truthy, clsF, messageF, nameF, statusCodeF, entityF, stackedPreF,
      keyPathF, originF, underlyingF, rawStackF, aggErrorsF, fixedStatus,
      fixedName, defaultMessage, nameOverridable, getProp])

/-- A wholly missing options argument behaves like an empty options object
when the message argument is also missing. -/
theorem mkVariant_undef_opts (v : Variant) (cap : Nat) :
    mkVariant v .undefv .undefv cap = mkVariant v .undefv (.obj []) cap := by
  cases v <;>
    simp [mkVariant, ApiError.construct, correctArguments_undef,
      correctArguments_obj, truthy]

/-- Constructing with the options object as the only argument equals
constructing with the message pulled out of it, by the argument correction. -/
theorem mkVariant_optsArg (v : Variant) (fs : List (String × JSVal)) (cap : Nat) :
    mkVariant v (.obj fs) .undefv cap = mkVariant v (lookupV fs "message") (.obj fs) cap := by
  cases v <;>
    simp [mkVariant, ApiError.construct, correctArguments_swap,
      correctArguments_obj]

/-- An error instance always destructures into the `errObj` constructor. -/
theorem isErrObj_elim (x : JSVal) (h : isErrObj x = true) :
    ∃ c m n en sc st kp og ul ob rs er,
      x = JSVal.errObj c m n en sc st kp og ul ob rs er := by
  cases x <;>
    first
      | exact ⟨_, _, _, _, _, _, _, _, _, _, _, _, rfl⟩
      | simp [isErrObj] at h

/-- The root of a four-error chain used to refute the full-chain claim. -/
def chainD : JSVal := ApiError.construct .base (.str "d") (.obj []) 0

/-- Third error of the chain, wrapping `chainD`. -/
def chainC : JSVal := ApiError.construct .base (.str "c") (.obj [("underlying", chainD)]) 1

/-- Second error of the chain, wrapping `chainC`. -/
def chainB : JSVal := ApiError.construct .base (.str "b") (.obj [("underlying", chainC)]) 2

/-- Top error of the chain, wrapping `chainB`. -/
def chainA : JSVal := ApiError.construct .base (.str "a") (.obj [("underlying", chainB)]) 3

/-- C1 counterexample: on the three-link chain a-b-c-d the `actual` getter
stops at c, which still wraps d, while the root of the `underlying` chain is
d; so `actual` is not the root for every chain depth. -/
theorem c1_counterexample :
    actualOf chainA = chainC
    ∧ specChainRoot chainA = chainD
    ∧ messageF (actualOf chainA) = .str "c"
    ∧ messageF (specChainRoot chainA) = .str "d"
    ∧ isErrObj (underlyingF (actualOf chainA)) = true :=
  ⟨rfl, rfl, rfl, rfl, rfl⟩

/-- C1 (amended): the `actual` accessor returns
`(underlying || empty).underlying || underlying || this`, which equals the
root of the `underlying` chain exactly when the chain has at most two links
(itself, its underlying error, or the underlying error of that one); for
longer chains it stops two links down, as the counterexample shows. -/
theorem c1_actual_eq_root_depth_le_two (e : JSVal) (he : isErrObj e = true)
    (h : underlyingF e = .undefv
       ∨ (isErrObj (underlyingF e) = true ∧ underlyingF (underlyingF e) = .undefv)
       ∨ (isErrObj (underlyingF e) = true
          ∧ isErrObj (underlyingF (underlyingF e)) = true
          ∧ underlyingF (underlyingF (underlyingF e)) = .undefv)) :
    actualOf e = specChainRoot e := by
  obtain ⟨c, m, n, en, sc, st, kp, og, ul, ob, rs, er, rfl⟩ := isErrObj_elim e he
  rcases h with h1 | ⟨h2a, h2b⟩ | ⟨h3a, h3b, h3c⟩
  · simp only [underlyingF] at h1
    subst h1
    simp [actualOf, specChainRoot, truthy, getProp, isErrObj, lookupV]
  · simp only [underlyingF] at h2a h2b
    obtain ⟨c2, m2, n2, en2, sc2, st2, kp2, og2, ul2, ob2, rs2, er2, rfl⟩ :=
      isErrObj_elim ul h2a
    simp only [underlyingF] at h2b
    subst h2b
    simp [actualOf, specChainRoot, truthy, getProp, isErrObj]
  · simp only [underlyingF] at h3a
    obtain ⟨c2, m2, n2, en2, sc2, st2, kp2, og2, ul2, ob2, rs2, er2, rfl⟩ :=
      isErrObj_elim ul h3a
    simp only [underlyingF] at h3b h3c
    obtain ⟨c3, m3, n3, en3, sc3, st3, kp3, og3, ul3, ob3, rs3, er3, rfl⟩ :=
      isErrObj_elim ul2 h3b
    simp only [underlyingF] at h3c
    subst h3c
    simp [actualOf, specChainRoot, truthy, getProp, isErrObj]

/-- C1 witness: the amended theorem applied to the two-link chain b-c-d,
whose `actual` is the root d. -/
theorem c1_witness : actualOf chainB = specChainRoot chainB :=
  c1_actual_eq_root_depth_le_two chainB rfl
    (Or.inr (Or.inr ⟨rfl, rfl, rfl⟩))

/-- Residual-bag lookup of any key other than `keyPath` after base
construction: the five deleted keys aside, the caller value survives. -/
theorem optionsF_construct_lookup (m0 : JSVal) (fs : List (String × JSVal))
    (cap : Nat) (k1 : String) (hk : k1 ≠ "keyPath") :
    getProp (optionsF (ApiError.construct .base m0 (.obj fs) cap)) k1 =
      lookupV (delFive fs) k1 := by
  rw [construct_obj]
  simp only [optionsF, getProp]
  cases hkp9 : lookupV fs "keyPath" <;>
    simp [getProp, lookupV_upsert_ne _ _ _ _ hk]

/-- Residual-bag lookup of `keyPath` after base construction: it is still
there, split in place when it was a string. -/
theorem optionsF_construct_keyPath (m0 : JSVal) (fs : List (String × JSVal))
    (cap : Nat) :
    getProp (optionsF (ApiError.construct .base m0 (.obj fs) cap)) "keyPath" =
      (match lookupV fs "keyPath" with
       | .str s => .strList (splitDots s)
       | kp => kp) := by
  have hkp : lookupV (delFive fs) "keyPath" = lookupV fs "keyPath" :=
    lookupV_delFive fs "keyPath" (by decide) (by decide) (by decide) (by decide) (by decide)
  rw [construct_obj]
  simp only [optionsF, getProp]
  cases hkp9 : lookupV fs "keyPath" <;>
    simp [getProp, lookupV_upsert_self, hkp, hkp9]

/-- C4 (amended): after base construction the keys `message`, `name`,
`entity`, `statusCode` and `stack` are removed from the supplied options
mapping and read `undefined` in the exposed `options` bag, but `keyPath`,
`origin` and `underlying` are NOT removed: `origin` and `underlying` survive
verbatim and `keyPath` survives (split in place when given as a string). -/
theorem c4_reserved_keys_partially_removed (m0 : JSVal)
    (fs : List (String × JSVal)) (cap : Nat) :
    getProp (optionsF (ApiError.construct .base m0 (.obj fs) cap)) "message" = .undefv
    ∧ getProp (optionsF (ApiError.construct .base m0 (.obj fs) cap)) "name" = .undefv
    ∧ getProp (optionsF (ApiError.construct .base m0 (.obj fs) cap)) "entity" = .undefv
    ∧ getProp (optionsF (ApiError.construct .base m0 (.obj fs) cap)) "statusCode" = .undefv
    ∧ getProp (optionsF (ApiError.construct .base m0 (.obj fs) cap)) "stack" = .undefv
    ∧ getProp (optionsF (ApiError.construct .base m0 (.obj fs) cap)) "origin" =
        lookupV fs "origin"
    ∧ getProp (optionsF (ApiError.construct .base m0 (.obj fs) cap)) "underlying" =
        lookupV fs "underlying"
    ∧ getProp (optionsF (ApiError.construct .base m0 (.obj fs) cap)) "keyPath" =
        (match lookupV fs "keyPath" with
         | .str s => .strList (splitDots s)
         | kp => kp) := by
  refine ⟨?_, ?_, ?_, ?_, ?_, ?_, ?_, optionsF_construct_keyPath m0 fs cap⟩
  · rw [optionsF_construct_lookup m0 fs cap _ (by decide), lookupV_delFive_message]
  · rw [optionsF_construct_lookup m0 fs cap _ (by decide), lookupV_delFive_name]
  · rw [optionsF_construct_lookup m0 fs cap _ (by decide), lookupV_delFive_entity]
  · rw [optionsF_construct_lookup m0 fs cap _ (by decide), lookupV_delFive_statusCode]
  · rw [optionsF_construct_lookup m0 fs cap _ (by decide), lookupV_delFive_stack]
  · rw [optionsF_construct_lookup m0 fs cap _ (by decide)]
    exact lookupV_delFive fs "origin" (by decide) (by decide) (by decide) (by decide) (by decide)
  · rw [optionsF_construct_lookup m0 fs cap _ (by decide)]
    exact lookupV_delFive fs "underlying" (by decide) (by decide) (by decide) (by decide) (by decide)

/-- C4 counterexample: constructing the base error with
`{ origin: 'svc', keyPath: 'a.b', underlying: chainD }` leaves `origin`,
`keyPath` (split) and `underlying` readable in the exposed generic `options`
bag, so the claim that all seven reserved keys are removed is false. -/
theorem c4_counterexample :
    getProp (optionsF (ApiError.construct .base (.str "m")
        (.obj [("origin", .str "svc"), ("keyPath", .str "a.b"),
          ("underlying", chainD)]) 0)) "origin" = .str "svc"
    ∧ getProp (optionsF (ApiError.construct .base (.str "m")
        (.obj [("origin", .str "svc"), ("keyPath", .str "a.b"),
          ("underlying", chainD)]) 0)) "keyPath" = .strList ["a", "b"]
    ∧ getProp (optionsF (ApiError.construct .base (.str "m")
        (.obj [("origin", .str "svc"), ("keyPath", .str "a.b"),
          ("underlying", chainD)]) 0)) "underlying" = chainD :=
  ⟨rfl, rfl, rfl⟩

/-- `merge` starting from a fresh empty object always produces an object. -/
theorem jsMerge_empty_isObj (q : JSVal) :
    ∃ MF, jsMerge (.obj []) q = .obj MF := by
  cases q <;> exact ⟨_, rfl⟩

/-- Every concrete variant constructor stores its fixed status code, no
matter what message and options the caller supplies: the fixed field merge
is the later source, so the fixed status always wins. -/
theorem statusCodeF_mkVariant (v : Variant) (hv : v ≠ .base) (m o : JSVal)
    (cap : Nat) :
    statusCodeF (mkVariant v m o cap) = .num (fixedStatus v) := by
  cases v
  case base => exact absurd rfl hv
  all_goals (
    simp only [mkVariant]
    obtain ⟨MF, hMF⟩ := jsMerge_empty_isObj (ApiError._correctArguments m o).2
    rw [hMF, jsMerge_obj_src]
    simp only [objFieldsOr, mergeFields, mergeVal]
    rw [construct_obj]
    rw [lookupV_fixed_sc]
    simp [statusCodeF, truthy, fixedStatus])

/-- Every concrete variant constructor stores the corrected message when it
is truthy, and the fixed default message otherwise, no matter what options
the caller supplies. -/
theorem messageF_mkVariant (v : Variant) (hv : v ≠ .base) (m o : JSVal)
    (cap : Nat) :
    messageF (mkVariant v m o cap) =
      (if truthy (ApiError._correctArguments m o).1 then (ApiError._correctArguments m o).1
       else .str (defaultMessage v)) := by
  cases v
  case base => exact absurd rfl hv
  all_goals (
    simp only [mkVariant]
    obtain ⟨MF, hMF⟩ := jsMerge_empty_isObj (ApiError._correctArguments m o).2
    rw [hMF, jsMerge_obj_src]
    simp only [objFieldsOr, mergeFields, mergeVal]
    rw [construct_obj]
    simp [messageF])

/-- C3 (amended): for every concrete variant the stored `statusCode` is the
fixed per-variant default regardless of any caller-supplied `statusCode`
option (the fixed merge source is later and wins); only the base `ApiError`
constructor honours a truthy caller-supplied `statusCode`, defaulting to 500
when the option is absent. -/
theorem c3_status_fixed_for_variants :
    (∀ (v : Variant), v ≠ .base → ∀ (m o : JSVal) (cap : Nat),
       statusCodeF (mkVariant v m o cap) = .num (fixedStatus v))
    ∧ (∀ (m : JSVal) (fs : List (String × JSVal)) (cap : Nat) (n : Int), n ≠ 0 →
       lookupV fs "statusCode" = .num n →
       statusCodeF (ApiError.construct .base m (.obj fs) cap) = .num n)
    ∧ (∀ (m : JSVal) (fs : List (String × JSVal)) (cap : Nat),
       lookupV fs "statusCode" = .undefv →
       statusCodeF (ApiError.construct .base m (.obj fs) cap) = .num 500) := by
  refine ⟨statusCodeF_mkVariant, ?_, ?_⟩
  · intro m fs cap n hn hsc
    rw [construct_obj]
    simp [statusCodeF, hsc, truthy, hn]
  · intro m fs cap hsc
    rw [construct_obj]
    simp [statusCodeF, hsc, truthy]

/-- C3 counterexample: `new NotFound({ statusCode: 999 })` stores 404, not
the caller-supplied 999, so the claim that a supplied `statusCode` option
overrides the per-variant default is false. -/
theorem c3_counterexample :
    statusCodeF (NotFound.make .undefv (.obj [("statusCode", .num 999)]) 0) = .num 404 :=
  statusCodeF_mkVariant .notFound (by decide) .undefv (.obj [("statusCode", .num 999)]) 0

/-- C3 witness: the amended theorem applied to `Conflict` with a supplied
status 888 (stored 409) and to the base class with supplied status 777
(stored 777) and with no status (stored 500). -/
theorem c3_witness :
    statusCodeF (mkVariant .conflict .undefv (.obj [("statusCode", .num 888)]) 0) =
      .num (fixedStatus .conflict)
    ∧ statusCodeF (ApiError.construct .base .undefv (.obj [("statusCode", .num 777)]) 0) =
        .num 777
    ∧ statusCodeF (ApiError.construct .base .undefv (.obj []) 0) = .num 500 :=
  ⟨c3_status_fixed_for_variants.1 .conflict (by decide) .undefv
      (.obj [("statusCode", .num 888)]) 0,
   c3_status_fixed_for_variants.2.1 .undefv [("statusCode", .num 777)] 0 777
      (by decide) rfl,
   c3_status_fixed_for_variants.2.2 .undefv [] 0 rfl⟩

/-- C9: every concrete variant constructed with no arguments carries its
fixed status code and fixed wire name; a truthy caller-supplied `name`
option replaces the fixed name on the overridable variants and is ignored
(the fixed name retained) on NotAuthorized, PaymentRequired and Forbidden,
exactly per the `nameOverridable` table. -/
theorem c9_defaults_and_override :
    (∀ (v : Variant), v ≠ .base → ∀ (cap : Nat),
       statusCodeF (mkVariant v .undefv .undefv cap) = .num (fixedStatus v)
       ∧ nameF (mkVariant v .undefv .undefv cap) = .str (fixedName v))
    ∧ (∀ (v : Variant), v ≠ .base → ∀ (s : String), s ≠ "" → ∀ (cap : Nat),
       nameF (mkVariant v .undefv (.obj [("name", .str s)]) cap) =
         (if nameOverridable v then .str s else .str (fixedName v))) := by
  constructor
  · intro v hv cap
    refine ⟨statusCodeF_mkVariant v hv .undefv .undefv cap, ?_⟩
    rw [mkVariant_undef_opts]
    rw [(mkVariant_obj_fields v hv .undefv [] cap).2.2.1]
    simp [mergeFields, lookupV, truthy, mergeVal_undef_left]
  · intro v hv s hs cap
    rw [(mkVariant_obj_fields v hv .undefv [("name", .str s)] cap).2.2.1]
    have ht : truthy (.str s) = true := by simp [truthy, hs]
    simp only [mergeFields, upsert, lookupV, mergeVal_undef_left, ht,
      if_true, ite_true]
    cases ho : nameOverridable v <;> simp [ho, mergeVal, ht]

/-- C9 witness: the theorem applied to `Forbidden` (fixed 403 and
`forbidden`, name override ignored) and to `NotFound` (name override
honoured). -/
theorem c9_witness :
    (statusCodeF (mkVariant .forbidden .undefv .undefv 0) = .num (fixedStatus .forbidden)
      ∧ nameF (mkVariant .forbidden .undefv .undefv 0) = .str (fixedName .forbidden))
    ∧ nameF (mkVariant .notFound .undefv (.obj [("name", .str "custom")]) 0) =
        (if nameOverridable .notFound then .str "custom" else .str (fixedName .notFound))
    ∧ nameF (mkVariant .forbidden .undefv (.obj [("name", .str "custom")]) 0) =
        (if nameOverridable .forbidden then .str "custom" else .str (fixedName .forbidden)) :=
  ⟨c9_defaults_and_override.1 .forbidden (by decide) 0,
   c9_defaults_and_override.2 .notFound (by decide) "custom" (by decide) 0,
   c9_defaults_and_override.2 .forbidden (by decide) "custom" (by decide) 0⟩

/-- C10: constructing any concrete variant with an empty string as the
message, either as the first argument (with any options) or as
`options.message` in a lone options object, stores the fixed default
message, because the default applies whenever the supplied message is
falsy. -/
theorem c10_empty_message_defaults :
    (∀ (v : Variant), v ≠ .base → ∀ (o : JSVal) (cap : Nat),
       messageF (mkVariant v (.str "") o cap) = .str (defaultMessage v))
    ∧ (∀ (v : Variant), v ≠ .base → ∀ (fs : List (String × JSVal)) (cap : Nat),
       lookupV fs "message" = .str "" →
       messageF (mkVariant v (.obj fs) .undefv cap) = .str (defaultMessage v)) := by
  constructor
  · intro v hv o cap
    rw [messageF_mkVariant v hv (.str "") o cap]
    simp [correctArguments_str, truthy]
  · intro v hv fs cap h
    rw [mkVariant_optsArg, messageF_mkVariant v hv _ _ cap]
    simp [correctArguments_obj, h, truthy]

/-- C10 witness: the theorem applied to `NotFound` with an empty first
argument and to `BadRequest` with `{ message: '' }`. -/
theorem c10_witness :
    messageF (mkVariant .notFound (.str "") (.obj [("entity", .str "user")]) 0) =
      .str (defaultMessage .notFound)
    ∧ messageF (mkVariant .badRequest (.obj [("message", .str "")]) .undefv 0) =
        .str (defaultMessage .badRequest) :=
  ⟨c10_empty_message_defaults.1 .notFound (by decide) (.obj [("entity", .str "user")]) 0,
   c10_empty_message_defaults.2 .badRequest (by decide) [("message", .str "")] 0 rfl⟩

/-- Every error instance passes the `_check` ancestry walk: its prototype
chain reaches the prototype whose constructor is named `ApiError`. -/
theorem isApiErrorCompatible_errObj (c : Variant) (m n en sc st kp og ul ob : JSVal)
    (rs : Nat) (er : JSVal) :
    isApiErrorCompatible (.errObj c m n en sc st kp og ul ob rs er) = true := by
  cases c <;> rfl

/-- C2 (amended): elements are validated on `add` (a non-array,
non-ErrorModel argument raises the type error synchronously and leaves the
collection unchanged, while an error instance is appended), but the initial
assignment at construction is NOT validated: `options.errors` is stored
verbatim, whatever it contains, whenever `options.underlying` is absent. -/
theorem c2_validation_on_add_not_construction :
    (∀ (self x : JSVal), isJSArray x = false → isApiErrorCompatible x = false →
       Aggregated.add self x = (self, some typeErrorMessage))
    ∧ (∀ (self x : JSVal), isErrObj x = true →
       Aggregated.add self x =
         (setAggErrors self (concatErrors (aggErrorsF self) (.arr [x])), none))
    ∧ (∀ (m : JSVal) (fs : List (String × JSVal)) (cap : Nat) (l : List JSVal),
       lookupV fs "underlying" = .undefv → lookupV fs "errors" = .arr l →
       aggErrorsF (mkVariant .aggregated m (.obj fs) cap) = .arr l) := by
  refine ⟨?_, ?_, ?_⟩
  · intro self x h1 h2
    cases x
    case arr l => simp [isJSArray] at h1
    case strList l => simp [isJSArray] at h1
    all_goals simp [Aggregated.add, Aggregated._check, h2]
  · intro self x hx
    obtain ⟨c, m, n, en, sc, st, kp, og, ul, ob, rs, er, rfl⟩ := isErrObj_elim x hx
    simp [Aggregated.add, Aggregated._check, isApiErrorCompatible_errObj]
  · intro m fs cap l hu he
    rw [(mkVariant_obj_fields .aggregated (by decide) m fs cap).2.2.2.2.2.2.2.2.2.2]
    simp [hu, he, isUndefv, isNullv, truthy]

/-- C2 counterexample: `new Aggregated({ errors: [42] })` succeeds and
stores the number 42, which is not ErrorModel-compatible, in its `errors`
collection — so the invariant is not enforced on initial assignment at
construction. -/
theorem c2_counterexample :
    aggErrorsF (Aggregated.make .undefv (.obj [("errors", .arr [.num 42])]) 0) =
      .arr [.num 42]
    ∧ isApiErrorCompatible (.num 42) = false :=
  ⟨c2_validation_on_add_not_construction.2.2 .undefv
      [("errors", .arr [.num 42])] 0 [.num 42] rfl rfl,
   rfl⟩

/-- C2 witness: adding the bare number 7 to an aggregated instance raises
the type error and leaves the instance unchanged, while adding the chain
root error instance succeeds and appends it. -/
theorem c2_witness :
    Aggregated.add (Aggregated.make .undefv .undefv 0) (.num 7) =
      (Aggregated.make .undefv .undefv 0, some typeErrorMessage)
    ∧ Aggregated.add (Aggregated.make .undefv .undefv 0) chainD =
        (setAggErrors (Aggregated.make .undefv .undefv 0)
          (concatErrors (aggErrorsF (Aggregated.make .undefv .undefv 0)) (.arr [chainD])),
         none) :=
  ⟨c2_validation_on_add_not_construction.1 (Aggregated.make .undefv .undefv 0)
      (.num 7) rfl rfl,
   c2_validation_on_add_not_construction.2.1 (Aggregated.make .undefv .undefv 0)
      chainD rfl⟩

/-- C7: `_check` raises the type error synchronously exactly when its input
is not an array or some element fails the ancestry walk, and returns the
array unchanged otherwise; and whenever `add` or the `errors` setter raises,
the stored collection is left exactly as it was (no partial application). -/
theorem c7_check_spec_and_no_partial_application :
    (∀ (l : List JSVal),
       Aggregated._check (.arr l) =
         (if l.all isApiErrorCompatible then Except.ok (.arr l)
          else Except.error typeErrorMessage))
    ∧ (∀ (x : JSVal), isJSArray x = false →
       Aggregated._check x = Except.error typeErrorMessage)
    ∧ (∀ (self es r : JSVal) (msg : String),
       Aggregated.setErrorsProp self es = (r, some msg) → r = self)
    ∧ (∀ (self e r : JSVal) (msg : String),
       Aggregated.add self e = (r, some msg) → r = self) := by
  refine ⟨?_, ?_, ?_, ?_⟩
  · intro l
    simp [Aggregated._check]
  · intro x hx
    cases x <;> simp [isJSArray] at hx ⊢ <;> simp [Aggregated._check]
  · intro self es r msg h
    revert h
    cases hc : Aggregated._check es <;> simp [Aggregated.setErrorsProp, hc]
    intro h1 _
    exact h1.symm
  · intro self e r msg h
    revert h
    unfold Aggregated.add
    cases hc : Aggregated._check (match e with
        | .arr l => JSVal.arr l
        | .strList l => JSVal.strList l
        | x => JSVal.arr [x]) <;> simp [hc]
    intro h1 _
    exact h1.symm

/-- C7 witness: the theorem applied to a non-array input (type error), to a
failing setter call and to a failing `add` call on a concrete aggregated
instance, whose state is returned unchanged. -/
theorem c7_witness :
    Aggregated._check (.num 5) = Except.error typeErrorMessage
    ∧ (Aggregated.setErrorsProp (Aggregated.make .undefv .undefv 0) (.num 5)).1 =
        Aggregated.make .undefv .undefv 0
    ∧ (Aggregated.add (Aggregated.make .undefv .undefv 0) (.num 7)).1 =
        Aggregated.make .undefv .undefv 0 :=
  ⟨c7_check_spec_and_no_partial_application.2.1 (.num 5) rfl,
   c7_check_spec_and_no_partial_application.2.2.1 (Aggregated.make .undefv .undefv 0)
      (.num 5) _ typeErrorMessage rfl,
   c7_check_spec_and_no_partial_application.2.2.2 (Aggregated.make .undefv .undefv 0)
      (.num 7) _ typeErrorMessage rfl⟩

/-- The five keys the base serialization always produces, in order. -/
def allowedKeys : List String := ["name", "message", "entity", "keyPath", "stack"]

/-- C8: for every error instance and every serialization config the `toJSON`
output object carries exactly the keys `name`, `message`, `entity`,
`keyPath` and `stack`, plus `errors` for an `Aggregated` instance; `origin`,
`underlying` and the generic `options` bag never appear. -/
theorem c8_toJSON_fields (i : JSVal) (hi : isErrObj i = true) (incl : Bool) :
    objKeys (toJSON i incl) =
      (if clsF i = .aggregated then allowedKeys ++ ["errors"] else allowedKeys)
    ∧ "origin" ∉ objKeys (toJSON i incl)
    ∧ "underlying" ∉ objKeys (toJSON i incl)
    ∧ "options" ∉ objKeys (toJSON i incl) := by
  obtain ⟨c, m, n, en, sc, st, kp, og, ul, ob, rs, er, rfl⟩ := isErrObj_elim i hi
  cases c <;>
    simp [toJSON, objKeys, jsMerge, mergeFields, upsert, lookupV,
      mergeVal_undef_left, allowedKeys, clsF]

/-- C8 witness: the theorem applied to a concrete `NotFound` instance and a
concrete `Aggregated` instance. -/
theorem c8_witness :
    (objKeys (toJSON (NotFound.make (.str "m") .undefv 0) true) =
      (if clsF (NotFound.make (.str "m") .undefv 0) = .aggregated then
        allowedKeys ++ ["errors"] else allowedKeys)
     ∧ "origin" ∉ objKeys (toJSON (NotFound.make (.str "m") .undefv 0) true)
     ∧ "underlying" ∉ objKeys (toJSON (NotFound.make (.str "m") .undefv 0) true)
     ∧ "options" ∉ objKeys (toJSON (NotFound.make (.str "m") .undefv 0) true))
    ∧ (objKeys (toJSON (Aggregated.make .undefv .undefv 0) false) =
      (if clsF (Aggregated.make .undefv .undefv 0) = .aggregated then
        allowedKeys ++ ["errors"] else allowedKeys)
     ∧ "origin" ∉ objKeys (toJSON (Aggregated.make .undefv .undefv 0) false)
     ∧ "underlying" ∉ objKeys (toJSON (Aggregated.make .undefv .undefv 0) false)
     ∧ "options" ∉ objKeys (toJSON (Aggregated.make .undefv .undefv 0) false)) :=
  ⟨c8_toJSON_fields (NotFound.make (.str "m") .undefv 0) rfl true,
   c8_toJSON_fields (Aggregated.make .undefv .undefv 0) rfl false⟩


/-- Constructing the base class with a lone options object records the base
class, the `message` read from the object, and the status option defaulted
to 500 when falsy. -/
theorem parse_base_fields (G : List (String × JSVal)) (cap : Nat) :
    clsF (mkVariant .base (.obj G) .undefv cap) = .base
    ∧ messageF (mkVariant .base (.obj G) .undefv cap) = lookupV G "message"
    ∧ statusCodeF (mkVariant .base (.obj G) .undefv cap) =
        (if truthy (lookupV G "statusCode") then lookupV G "statusCode" else .num 500) := by
  rw [mkVariant_optsArg]
  simp only [mkVariant]
  rw [construct_obj]
  exact ⟨rfl, rfl, rfl⟩

/-- C6 (amended): parsing a payload whose `name` is a nonempty string not in
the fixed name table yields a base-class instance carrying the supplied
(truthy) status code and the payload message. (A falsy `name` — the empty
string, though not in the table — instead falls back to the `bad-request`
entry, whose constructor forces status 400, as the counterexample shows.) -/
theorem c6_parse_unknown_nonempty_name (fuel cap : Nat)
    (fs : List (String × JSVal)) (og : JSVal) (s msg : String) (n : Int)
    (hnodup : (fs.map Prod.fst).Nodup)
    (hs : ApiError._type s = .base) (hs0 : s ≠ "")
    (hname : lookupV fs "name" = .str s)
    (hmsg : lookupV fs "message" = .str msg)
    (hn : n ≠ 0) :
    clsF (ApiError.parse (fuel + 1) (.obj fs) (.num n) og cap) = .base
    ∧ statusCodeF (ApiError.parse (fuel + 1) (.obj fs) (.num n) og cap) = .num n
    ∧ messageF (ApiError.parse (fuel + 1) (.obj fs) (.num n) og cap) = .str msg := by
  have hts : truthy (.str s) = true := by simp [truthy, hs0]
  have hm0 : ∀ k, lookupV (mergeFields [] fs) k =
      (match lookupOpt fs k with
       | some v => mergeVal .undefv v
       | none => .undefv) := by
    intro k
    rw [lookupV_mergeFields fs [] k hnodup]
    cases lookupOpt fs k <;> simp [lookupV]
  simp only [ApiError.parse, merge3, getProp]
  rw [hmsg, hname]
  simp only [jsMerge]
  simp only [mergeFields, mergeVal]
  have hdisp : (if truthy (JSVal.str s) = true then JSVal.str s
      else JSVal.str "bad-request") = JSVal.str s := by simp [hts]
  simp only [hdisp, hs]
  rw [lookupV_upsert_ne _ "origin" "errors" _ (by decide),
    lookupV_upsert_ne _ "statusCode" "errors" _ (by decide),
    lookupV_upsert_ne _ "message" "errors" _ (by decide),
    hm0 "errors"]
  cases ho : lookupOpt fs "errors" with
  | none =>
    simp only [setProp]
    refine ⟨(parse_base_fields _ _).1, ?_, ?_⟩
    · rw [(parse_base_fields _ _).2.2,
        lookupV_upsert_ne _ "errors" "statusCode" _ (by decide),
        lookupV_upsert_ne _ "origin" "statusCode" _ (by decide),
        lookupV_upsert_self]
      simp [truthy, hn]
    · rw [(parse_base_fields _ _).2.1,
        lookupV_upsert_ne _ "errors" "message" _ (by decide),
        lookupV_upsert_ne _ "origin" "message" _ (by decide),
        lookupV_upsert_ne _ "statusCode" "message" _ (by decide),
        lookupV_upsert_self]
  | some v =>
    simp only [mergeVal_undef_left]
    cases v
    all_goals (
      simp only [setProp]
      refine ⟨(parse_base_fields _ _).1, ?_, ?_⟩
      · rw [(parse_base_fields _ _).2.2,
          lookupV_upsert_ne _ "errors" "statusCode" _ (by decide),
          lookupV_upsert_ne _ "origin" "statusCode" _ (by decide),
          lookupV_upsert_self]
        simp [truthy, hn]
      · rw [(parse_base_fields _ _).2.1,
          lookupV_upsert_ne _ "errors" "message" _ (by decide),
          lookupV_upsert_ne _ "origin" "message" _ (by decide),
          lookupV_upsert_ne _ "statusCode" "message" _ (by decide),
          lookupV_upsert_self])

/-- C6 counterexample: the empty string is a name that is not in the fixed
name-to-variant table, yet parsing `{ name: '', message: 'x' }` with status
418 yields a `BadRequest` instance with status 400 — not a base-type
instance carrying the supplied status — because the falsy name falls back
to `bad-request` and the variant constructor forces its fixed status. -/
theorem c6_counterexample :
    clsF (ApiError.parse 1 (.obj [("name", .str ""), ("message", .str "x")])
      (.num 418) .nullv 0) = .badRequest
    ∧ statusCodeF (ApiError.parse 1 (.obj [("name", .str ""), ("message", .str "x")])
        (.num 418) .nullv 0) = .num 400 :=
  ⟨rfl, rfl⟩

/-- C6 witness: the amended theorem applied to the payload of the spec,
`{ name: 'totally-unknown', message: 'x' }` with status 418. -/
theorem c6_witness :
    clsF (ApiError.parse 1 (.obj [("name", .str "totally-unknown"),
      ("message", .str "x")]) (.num 418) .nullv 0) = .base
    ∧ statusCodeF (ApiError.parse 1 (.obj [("name", .str "totally-unknown"),
        ("message", .str "x")]) (.num 418) .nullv 0) = .num 418
    ∧ messageF (ApiError.parse 1 (.obj [("name", .str "totally-unknown"),
        ("message", .str "x")]) (.num 418) .nullv 0) = .str "x" :=
  c6_parse_unknown_nonempty_name 0 0
    [("name", .str "totally-unknown"), ("message", .str "x")] .nullv
    "totally-unknown" "x" 418 (by decide) rfl (by decide) rfl rfl (by decide)

/-- The external stack formatter always yields a (truthy) structured stack. -/
theorem truthy_stackToJSON (y : JSVal) : truthy (ApiError.stackToJSON y) = true := by
  cases y <;> rfl

/-- The `stacked` getter always yields a truthy value: either the truthy
pre-supplied structured stack, or one computed by the formatter. -/
theorem truthy_stackedOf (x : JSVal) : truthy (stackedOf x) = true := by
  simp only [stackedOf]
  split
  · assumption
  · exact truthy_stackToJSON _

/-- Every constructor yields an error instance. -/
theorem isErrObj_mkVariant (v : Variant) (m o : JSVal) (cap : Nat) :
    isErrObj (mkVariant v m o cap) = true := by
  cases v <;> rfl

/-- On an instance without an underlying error, `stacked` is the
pre-supplied structured stack when truthy, else the structured form of the
raw stack captured at construction. -/
theorem stackedOf_of_fields (x : JSVal) (hx : isErrObj x = true)
    (hu : underlyingF x = .undefv) :
    stackedOf x =
      (if truthy (stackedPreF x) then stackedPreF x
       else ApiError.stackToJSON (.rawStk (rawStackF x))) := by
  obtain ⟨c, m, n, en, sc, st, kp, og, ul, ob, rs, er, rfl⟩ := isErrObj_elim x hx
  simp only [underlyingF] at hu
  subst hu
  simp [stackedOf, actualOf, truthy, getProp, stackedPreF, rawStackF, lookupV]

/-- `stacked` of a freshly constructed variant without an underlying error
reads the merged `stack` option when truthy, else formats the captured raw
stack. -/
theorem stackedOf_mkVariant (v : Variant) (hv : v ≠ .base) (m : JSVal)
    (G : List (String × JSVal)) (cap : Nat)
    (hu : lookupV (mergeFields [] G) "underlying" = .undefv) :
    stackedOf (mkVariant v m (.obj G) cap) =
      (if truthy (lookupV (mergeFields [] G) "stack")
       then lookupV (mergeFields [] G) "stack"
       else ApiError.stackToJSON (.rawStk cap)) := by
  have h1 := mkVariant_obj_fields v hv m G cap
  rw [stackedOf_of_fields _ (isErrObj_mkVariant v m (.obj G) cap)
    (by rw [h1.2.2.2.2.2.2.2.2.1]; exact hu)]
  rw [h1.2.2.2.2.2.1, h1.2.2.2.2.2.2.2.2.2.1]

/-- `parse` on a five-key payload of the exact shape the base serialization
emits: the deep merge leaves the payload fields in place, appends the
supplied status code and origin, writes `errors: undefined`, and dispatches
on the payload name. -/
theorem parse_obj5 (fuel cap : Nat) (sc og env kpv stv : JSVal) (s m : String)
    (hs : s ≠ "") :
    ApiError.parse (fuel + 1)
      (.obj [("name", .str s), ("message", .str m), ("entity", env),
        ("keyPath", kpv), ("stack", stv)]) sc og cap =
      mkVariant (ApiError._type s)
        (.obj [("name", .str s), ("message", .str m), ("entity", env),
          ("keyPath", kpv), ("stack", stv), ("statusCode", sc), ("origin", og),
          ("errors", .undefv)])
        .undefv cap := by
  have ht : truthy (.str s) = true := by simp [truthy, hs]
  simp [ApiError.parse, merge3, jsMerge, getProp, lookupV, mergeFields,
    upsert, mergeVal, mergeVal_undef_left, setProp, ht]

/-- `parse` on a six-key payload of the exact shape the aggregated
serialization emits: as for the five-key case, but the `errors` array is
re-assigned to the recursively parsed children. -/
theorem parse_obj6 (fuel cap : Nat) (sc og env kpv stv : JSVal) (L : List JSVal)
    (s m : String) (hs : s ≠ "") :
    ApiError.parse (fuel + 1)
      (.obj [("name", .str s), ("message", .str m), ("entity", env),
        ("keyPath", kpv), ("stack", stv), ("errors", .arr L)]) sc og cap =
      mkVariant (ApiError._type s)
        (.obj [("name", .str s), ("message", .str m), ("entity", env),
          ("keyPath", kpv), ("stack", stv),
          ("errors", .arr (L.map (fun e => ApiError.parse fuel e sc og cap))),
          ("statusCode", sc), ("origin", og)])
        .undefv cap := by
  have ht : truthy (.str s) = true := by simp [truthy, hs]
  simp [ApiError.parse, merge3, jsMerge, getProp, lookupV, mergeFields,
    upsert, mergeVal, mergeVal_undef_left, setProp, ht]

/-- C5 (amended): for every concrete variant instance whose internal name is
the variant canonical wire name, whose message is a nonempty string, whose
key path is absent or a nonempty sequence whose dot-join splits back to
itself, and whose reachable `errors` collections are well-formed,
parsing the serialized form produced with the stack included
yields an instance of the same variant with equal `message`, `entity`,
`keyPath` and structured stack. (An overridden name or an empty or
dot-containing key path breaks the round trip, as the counterexample
shows.) -/
theorem c5_roundtrip (v : Variant) (i : JSVal) (fuel cap : Nat) (og sc : JSVal)
    (hv : v ≠ .base)
    (hobj : isErrObj i = true)
    (hcls : clsF i = v)
    (hname : nameF i = .str (fixedName v))
    (hmsg : ∃ m0, messageF i = .str m0 ∧ m0 ≠ "")
    (hkp : keyPathF i = .undefv
         ∨ ∃ l, keyPathF i = .strList l ∧ l ≠ [] ∧ splitDots (joinDots l) = l)
    (hagg : aggWF i = true) :
    clsF (ApiError.parse (fuel + 1) (toJSON i true) sc og cap) = v
    ∧ messageF (ApiError.parse (fuel + 1) (toJSON i true) sc og cap) = messageF i
    ∧ entityF (ApiError.parse (fuel + 1) (toJSON i true) sc og cap) = entityF i
    ∧ keyPathF (ApiError.parse (fuel + 1) (toJSON i true) sc og cap) = keyPathF i
    ∧ stackedOf (ApiError.parse (fuel + 1) (toJSON i true) sc og cap) = stackedOf i := by
  obtain ⟨c0, m, n, en, sc0, st, kp, og0, ul, ob, rs, er, rfl⟩ := isErrObj_elim i hobj
  simp only [clsF] at hcls
  subst hcls
  obtain ⟨m0, hm0, hm0ne⟩ := hmsg
  simp only [messageF] at hm0
  subst hm0
  simp only [nameF] at hname
  subst hname
  clear hobj hagg
  have hkb : kebab (fixedName c0) = fixedName c0 := by cases c0 <;> rfl
  have hfne : fixedName c0 ≠ "" := by
    cases c0
    case base => exact absurd rfl hv
    all_goals decide
  have htype : ApiError._type (fixedName c0) = c0 := by
    cases c0 <;> rfl
  have hnm : nameOut (.str (fixedName c0)) = .str (fixedName c0) := by
    simp [nameOut, hfne, hkb]
  simp only [keyPathF] at hkp
  by_cases hA : c0 = .aggregated
  · subst hA
    rcases hkp with hkp1 | ⟨l, hkp1, hl, hsplit⟩
    · subst hkp1
      rw [toJSON, if_pos rfl, hnm,
        (show keyPathOut JSVal.undefv = JSVal.undefv from rfl), if_pos rfl]
      simp only [fixedName] at hfne htype hnm ⊢
      simp [jsMerge, mergeFields, upsert, lookupV, mergeVal, mergeVal_undef_left]
      rw [parse_obj6 fuel cap sc og _ _ _ _ _ _ hfne, htype, mkVariant_optsArg]
      refine ⟨(mkVariant_obj_fields _ hv _ _ cap).1, ?_, ?_, ?_, ?_⟩
      · rw [(mkVariant_obj_fields _ hv _ _ cap).2.1]
        simp [lookupV, truthy, hm0ne, messageF]
      · rw [(mkVariant_obj_fields _ hv _ _ cap).2.2.2.2.1]
        simp [mergeFields, upsert, lookupV, mergeVal_undef_left, entityF]
      · rw [(mkVariant_obj_fields _ hv _ _ cap).2.2.2.2.2.2.1]
        simp [mergeFields, upsert, lookupV, mergeVal_undef_left, keyPathF]
      · rw [stackedOf_mkVariant _ hv _ _ cap
          (by simp [mergeFields, upsert, lookupV, mergeVal_undef_left])]
        simp [mergeFields, upsert, lookupV, mergeVal_undef_left, truthy_stackedOf]
    · subst hkp1
      have hkpo : keyPathOut (.strList l) = .str (joinDots l) := by
        cases l with
        | nil => exact absurd rfl hl
        | cons a t => rfl
      rw [toJSON, if_pos rfl, hnm, hkpo, if_pos rfl]
      simp only [fixedName] at hfne htype hnm ⊢
      simp [jsMerge, mergeFields, upsert, lookupV, mergeVal, mergeVal_undef_left]
      rw [parse_obj6 fuel cap sc og _ _ _ _ _ _ hfne, htype, mkVariant_optsArg]
      refine ⟨(mkVariant_obj_fields _ hv _ _ cap).1, ?_, ?_, ?_, ?_⟩
      · rw [(mkVariant_obj_fields _ hv _ _ cap).2.1]
        simp [lookupV, truthy, hm0ne, messageF]
      · rw [(mkVariant_obj_fields _ hv _ _ cap).2.2.2.2.1]
        simp [mergeFields, upsert, lookupV, mergeVal_undef_left, entityF]
      · rw [(mkVariant_obj_fields _ hv _ _ cap).2.2.2.2.2.2.1]
        simp [mergeFields, upsert, lookupV, mergeVal_undef_left, keyPathF, hsplit]
      · rw [stackedOf_mkVariant _ hv _ _ cap
          (by simp [mergeFields, upsert, lookupV, mergeVal_undef_left])]
        simp [mergeFields, upsert, lookupV, mergeVal_undef_left, truthy_stackedOf]
  · rcases hkp with hkp1 | ⟨l, hkp1, hl, hsplit⟩
    · subst hkp1
      rw [toJSON, if_neg hA, hnm,
        (show keyPathOut JSVal.undefv = JSVal.undefv from rfl), if_pos rfl]
      rw [parse_obj5 fuel cap sc og _ _ _ _ _ hfne, htype, mkVariant_optsArg]
      refine ⟨(mkVariant_obj_fields _ hv _ _ cap).1, ?_, ?_, ?_, ?_⟩
      · rw [(mkVariant_obj_fields _ hv _ _ cap).2.1]
        simp [lookupV, truthy, hm0ne, messageF]
      · rw [(mkVariant_obj_fields _ hv _ _ cap).2.2.2.2.1]
        simp [mergeFields, upsert, lookupV, mergeVal_undef_left, entityF]
      · rw [(mkVariant_obj_fields _ hv _ _ cap).2.2.2.2.2.2.1]
        simp [mergeFields, upsert, lookupV, mergeVal_undef_left, keyPathF]
      · rw [stackedOf_mkVariant _ hv _ _ cap
          (by simp [mergeFields, upsert, lookupV, mergeVal_undef_left])]
        simp [mergeFields, upsert, lookupV, mergeVal_undef_left, truthy_stackedOf]
    · subst hkp1
      have hkpo : keyPathOut (.strList l) = .str (joinDots l) := by
        cases l with
        | nil => exact absurd rfl hl
        | cons a t => rfl
      rw [toJSON, if_neg hA, hnm, hkpo, if_pos rfl]
      rw [parse_obj5 fuel cap sc og _ _ _ _ _ hfne, htype, mkVariant_optsArg]
      refine ⟨(mkVariant_obj_fields _ hv _ _ cap).1, ?_, ?_, ?_, ?_⟩
      · rw [(mkVariant_obj_fields _ hv _ _ cap).2.1]
        simp [lookupV, truthy, hm0ne, messageF]
      · rw [(mkVariant_obj_fields _ hv _ _ cap).2.2.2.2.1]
        simp [mergeFields, upsert, lookupV, mergeVal_undef_left, entityF]
      · rw [(mkVariant_obj_fields _ hv _ _ cap).2.2.2.2.2.2.1]
        simp [mergeFields, upsert, lookupV, mergeVal_undef_left, keyPathF, hsplit]
      · rw [stackedOf_mkVariant _ hv _ _ cap
          (by simp [mergeFields, upsert, lookupV, mergeVal_undef_left])]
        simp [mergeFields, upsert, lookupV, mergeVal_undef_left, truthy_stackedOf]

/-- A `NotFound` instance with an overridden name, breaking the round trip. -/
def c5Bad : JSVal := NotFound.make .undefv (.obj [("name", .str "custom")]) 0

/-- C5 counterexample: a `NotFound` constructed with the name option set to `custom`
serializes with name `custom`, which the parse table does not know, so
re-parsing its own serialized form with its own status code yields a
base-class instance, not a `NotFound`. -/
theorem c5_counterexample :
    clsF c5Bad = .notFound
    ∧ nameF c5Bad = .str "custom"
    ∧ clsF (ApiError.parse 1 (toJSON c5Bad true) (statusCodeF c5Bad) .nullv 0) =
        .base :=
  ⟨rfl, rfl, rfl⟩

/-- A concrete `NotFound`-class instance exercising the round trip. -/
def c5Sample : JSVal :=
  .errObj .notFound (.str "nope") (.str "not-found") (.str "user") (.num 404)
    .undefv (.strList ["a", "b"]) .undefv .undefv (.obj []) 7 .undefv

/-- C5 witness: the amended round-trip theorem applied to the concrete
instance, with its own status code 404. -/
theorem c5_witness :
    clsF (ApiError.parse 1 (toJSON c5Sample true) (.num 404) .nullv 7) = .notFound
    ∧ messageF (ApiError.parse 1 (toJSON c5Sample true) (.num 404) .nullv 7) =
        messageF c5Sample
    ∧ entityF (ApiError.parse 1 (toJSON c5Sample true) (.num 404) .nullv 7) =
        entityF c5Sample
    ∧ keyPathF (ApiError.parse 1 (toJSON c5Sample true) (.num 404) .nullv 7) =
        keyPathF c5Sample
    ∧ stackedOf (ApiError.parse 1 (toJSON c5Sample true) (.num 404) .nullv 7) =
        stackedOf c5Sample :=
  c5_roundtrip .notFound c5Sample 0 7 .nullv (.num 404) (by decide) rfl rfl rfl
    ⟨"nope", rfl, by decide⟩ (Or.inr ⟨["a", "b"], rfl, by decide, rfl⟩) rfl

